import Mathlib

/-!
Verification of the STAR data-import pipeline (`import_data.py`).

The pipeline is embedded shallowly: pandas cells become the `Val` type
(`na` models NaN / missing, `num` a numeric value, `junk` an unparseable
entry), a DataFrame becomes a `Frame` (column list plus rows of
column/value bindings), and the external world (MongoDB connectivity,
filesystem, per-batch insert outcomes, per-index creation outcomes) is
an explicit `Env` record.  Each Python function is translated into a
Lean function of the same name and control flow.
-/

namespace STAR

/-- A pandas cell after CSV load: missing (NaN), a numeric value, or an
unparseable entry (which `pd.to_numeric(errors=coerce)` turns into NaN). -/
inductive Val where
  | na : Val
  | num : ℚ → Val
  | junk : Val
deriving DecidableEq

/-- A row of a DataFrame: bindings from column name to cell value. -/
def Row : Type := List (String × Val)

instance : DecidableEq Row := by unfold Row; infer_instance

/-- Cell access: the value bound to column `c`, NaN when unbound. -/
def Row.get : Row → String → Val
  | [], _ => .na
  | (c, v) :: r, c' => if c' = c then v else Row.get r c'

/-- Cell update (first binding wins, new binding appended when absent). -/
def Row.set : Row → String → Val → Row
  | [], c, v => [(c, v)]
  | (c', v') :: r, c, v =>
      if c = c' then (c, v) :: r else (c', v') :: Row.set r c v

/-- A DataFrame: its column names and its rows, in file order. -/
structure Frame where
  cols : List String
  rows : List Row
deriving DecidableEq

/-- `pd.to_numeric(x, errors=coerce)` on one cell: numbers pass through,
everything else (missing or unparseable) becomes NaN. -/
def coerceVal : Val → Val
  | .num q => .num q
  | _ => .na

/-- One iteration of the coercion loop: `if col in df.columns:
df[col] = pd.to_numeric(df[col], errors=coerce)`. -/
def coerceCol (f : Frame) (c : String) : Frame :=
  if c ∈ f.cols then
    { f with rows := f.rows.map (fun r => r.set c (coerceVal (r.get c))) }
  else f

/-- The `numeric_columns` list of `clean_and_validate_data`. -/
def numeric_columns : List String :=
  ["HIP", "Vmag", "Distance_pc", "B-V", "RA", "DE"]

/-- The coercion loop over `numeric_columns`. -/
def coerceAll (f : Frame) : Frame := numeric_columns.foldl coerceCol f

/-- `df.drop_duplicates(subset=[HIP], keep=first)`: keep a row only if
its HIP cell was not seen earlier (pandas treats NaN cells as equal for
duplicate detection, hence plain value equality). -/
def dedupFirst : List Row → List Val → List Row
  | [], _ => []
  | r :: rs, seen =>
      if r.get "HIP" ∈ seen then dedupFirst rs seen
      else r :: dedupFirst rs (r.get "HIP" :: seen)

/-- The boolean mask `(df[Vmag] >= -3) & (df[Vmag] <= 20)`: pandas
comparisons with NaN are False, so a missing Vmag yields False. -/
def vmagKeep (r : Row) : Bool :=
  match r.get "Vmag" with
  | .num q => decide ((-3 : ℚ) ≤ q ∧ q ≤ 20)
  | _ => false

/-- The boolean mask `(df[Distance_pc] > 0) | df[Distance_pc].isna()`. -/
def distKeep (r : Row) : Bool :=
  match r.get "Distance_pc" with
  | .num q => decide ((0 : ℚ) < q)
  | .na => true
  | .junk => false

/-- Step 4 of cleaning: `if Vmag in df.columns: df = df[mask]`. -/
def vmagStep (f : Frame) : Frame :=
  if "Vmag" ∈ f.cols then { f with rows := f.rows.filter vmagKeep } else f

/-- Step 5 of cleaning: `if Distance_pc in df.columns: df = df[mask]`. -/
def distStep (f : Frame) : Frame :=
  if "Distance_pc" ∈ f.cols then { f with rows := f.rows.filter distKeep } else f

/-- The row mask of `df.dropna(subset=[HIP])`: keep rows whose HIP cell
is not NaN. -/
def hipKeep (r : Row) : Bool := !(r.get "HIP" == Val.na)

/-- `clean_and_validate_data`: numeric coercion, `dropna(subset=[HIP])`
(which raises KeyError when the HIP column is absent, modelled as
`Except.error`), dedup on HIP keeping the first occurrence, then the two
guarded range filters. -/
def clean_and_validate_data (df : Frame) : Except String Frame :=
  let df1 := coerceAll df
  if "HIP" ∈ df1.cols then
    let df2 := { df1 with rows := df1.rows.filter hipKeep }
    let df3 := { df2 with rows := dedupFirst df2.rows [] }
    .ok (distStep (vmagStep df3))
  else
    .error "KeyError: HIP"

/-- The loop body of `wait_for_mongodb`: `attemptOk i` tells whether the
connection attempt with index `i` receives `server_info` acknowledgment
(an exception counts as `false`; the `except` clause swallows it).
Returns the boolean result together with the number of attempts made. -/
def waitRun (attemptOk : ℕ → Bool) : ℕ → ℕ → Bool × ℕ
  | 0, i => (false, i)
  | fuel + 1, i => if attemptOk i then (true, i + 1) else waitRun attemptOk fuel (i + 1)

/-- `wait_for_mongodb(uri, max_retries)`: `for attempt in range(max_retries)`,
return True on the first acknowledged attempt, False when the budget is
exhausted. -/
def wait_for_mongodb (attemptOk : ℕ → Bool) (max_retries : ℕ) : Bool :=
  (waitRun attemptOk max_retries 0).1

/-- Number of connection attempts actually performed. -/
def waitAttempts (attemptOk : ℕ → Bool) (max_retries : ℕ) : ℕ :=
  (waitRun attemptOk max_retries 0).2

/-- One entry of the `indexes_to_create` list: either a single-field index
(with its uniqueness option) or a compound index with a custom name. -/
inductive IndexSpec where
  | single : String → Bool → IndexSpec
  | compound : List (String × Int) → String → IndexSpec
deriving DecidableEq

/-- The hardcoded `indexes_to_create` list of `create_database_indexes`. -/
def indexes_to_create : List IndexSpec :=
  [ .single "HIP" true,
    .single "Vmag" false,
    .single "Distance_pc" false,
    .single "SpType" false,
    .single "B-V" false,
    .compound [("RA", 1), ("DE", 1)] "sky_coordinates",
    .compound [("Vmag", 1), ("Distance_pc", 1)] "brightness_distance" ]

/-- The `for index_spec in indexes_to_create` loop: `indexOk i` tells
whether `create_index` on the `i`-th spec succeeds (an exception counts as
`false` and is logged as a warning).  Returns the list of attempted specs
with their outcomes and the final `created_count`. -/
def indexLoop (indexOk : ℕ → Bool) : List IndexSpec → ℕ → List (IndexSpec × Bool) × ℕ
  | [], _ => ([], 0)
  | s :: rest, i =>
      let r := indexLoop indexOk rest (i + 1)
      if indexOk i then ((s, true) :: r.1, r.2 + 1) else ((s, false) :: r.1, r.2)

/-- Observable result of `create_database_indexes`: the attempted index
specs with their outcomes, the `created_count` that is logged, and the
Python return value (the function has no `return` statement, so it
returns None). -/
structure IndexRunLog where
  attempts : List (IndexSpec × Bool)
  createdCount : ℕ
  ret : Option ℕ
deriving DecidableEq

/-- `create_database_indexes(collection)`. -/
def create_database_indexes (indexOk : ℕ → Bool) : IndexRunLog :=
  let r := indexLoop indexOk indexes_to_create 0
  { attempts := r.1, createdCount := r.2, ret := none }

/-- The hardcoded `csv_paths` candidate list of `import_star_data`. -/
def csv_paths : List String :=
  ["./hipparcos-voidmain.csv", "/app/hipparcos-voidmain.csv", "/data/hipparcos-voidmain.csv"]

/-- The source-locator loop: first candidate path that exists. -/
def findCsv (pathExists : String → Bool) : Option String :=
  csv_paths.find? pathExists

/-- `records[i:i+batch_size]` slicing loop, driven by
`range(0, len(records), batch_size)`; `fuel` bounds the recursion by the
list length (each step with a positive batch size consumes at least one
element). -/
def chunkAux (bs : ℕ) : ℕ → List Row → List (List Row)
  | 0, _ => []
  | _, [] => []
  | fuel + 1, l@(_ :: _) => l.take bs :: chunkAux bs fuel (l.drop bs)

/-- The batch partition of the record list: consecutive slices of size
`bs` in source order. -/
def chunk (bs : ℕ) (l : List Row) : List (List Row) :=
  chunkAux bs l.length l

/-- The batch-insert loop: `batchOk i` tells whether `insert_many` on the
`i`-th batch returns normally (in which case all its records are inserted
and counted) or raises (logged as a warning, contributing nothing to
`total_inserted`).  Returns the final `total_inserted` together with the
per-batch log (batch size, outcome). -/
def insertLoop (batchOk : ℕ → Bool) : List (List Row) → ℕ → ℕ → ℕ × List (ℕ × Bool)
  | [], _, total => (total, [])
  | b :: bs, i, total =>
      if batchOk i then
        let r := insertLoop batchOk bs (i + 1) (total + b.length)
        (r.1, (b.length, true) :: r.2)
      else
        let r := insertLoop batchOk bs (i + 1) total
        (r.1, (b.length, false) :: r.2)

/-- The external world as seen by one run of `import_data.py`: per-attempt
connectivity outcomes, the retry budget, the pre-existing document count
of the destination collection, which filesystem paths exist, the outcome
of `pd.read_csv` at the located path, per-batch insert outcomes,
per-index creation outcomes, and whether the statistics aggregation
succeeds. -/
structure Env where
  connOk : ℕ → Bool
  maxRetries : ℕ
  existingCount : ℕ
  pathExists : String → Bool
  parseResult : Option Frame
  batchOk : ℕ → Bool
  indexOk : ℕ → Bool
  statsOk : Bool

/-- Observables of one process run: the exit code (`sys.exit` argument),
connection attempts made, sizes of the `insert_many` calls issued,
the logged `total_inserted`, the destination document count after the
run, whether `create_database_indexes` was reached, its `created_count`,
and whether the statistics block ran to completion. -/
structure RunResult where
  exitCode : ℕ
  attemptsMade : ℕ
  insertCallSizes : List ℕ
  totalInserted : ℕ
  finalCount : ℕ
  indexAttempted : Bool
  indexCreatedCount : ℕ
  statsReported : Bool
deriving DecidableEq

/-- A run that stops before any insert or index work with exit code 1:
the connectivity `sys.exit(1)`, the `return False` of the missing-CSV and
CSV-read-error paths, and the `return False` of the critical `except`
(all made exit code 1 by `main`). -/
def failResult (env : Env) (attempts : ℕ) : RunResult :=
  { exitCode := 1, attemptsMade := attempts, insertCallSizes := [],
    totalInserted := 0, finalCount := env.existingCount,
    indexAttempted := false, indexCreatedCount := 0, statsReported := false }

/-- The `existing_count > 0` fast path: skip import, still create
indexes, `return True` (exit code 0 via `main`). -/
def fastPathResult (env : Env) (attempts : ℕ) : RunResult :=
  { exitCode := 0, attemptsMade := attempts, insertCallSizes := [],
    totalInserted := 0, finalCount := env.existingCount,
    indexAttempted := true,
    indexCreatedCount := (create_database_indexes env.indexOk).createdCount,
    statsReported := false }

/-- The full import path: batch inserts, index creation, statistics,
`return True` (exit code 0 via `main`). -/
def fullImportResult (env : Env) (attempts : ℕ) (cleaned : Frame) : RunResult :=
  let batches := chunk 5000 cleaned.rows
  let ins := insertLoop env.batchOk batches 0 0
  { exitCode := 0, attemptsMade := attempts,
    insertCallSizes := batches.map List.length,
    totalInserted := ins.1,
    finalCount := env.existingCount + ins.1,
    indexAttempted := true,
    indexCreatedCount := (create_database_indexes env.indexOk).createdCount,
    statsReported := env.statsOk }

/-- `main` composed with `import_star_data`: wait for the store
(`sys.exit(1)` on failure), fast path when documents already exist,
otherwise locate the CSV, read it, clean it (a raised KeyError lands in
the critical `except` and returns False), then batch-insert, create
indexes and report statistics. -/
def runPipeline (env : Env) : RunResult :=
  if wait_for_mongodb env.connOk env.maxRetries then
    if 0 < env.existingCount then
      fastPathResult env (waitAttempts env.connOk env.maxRetries)
    else
      match findCsv env.pathExists with
      | none => failResult env (waitAttempts env.connOk env.maxRetries)
      | some _ =>
        match env.parseResult with
        | none => failResult env (waitAttempts env.connOk env.maxRetries)
        | some df =>
          match clean_and_validate_data df with
          | .error _ => failResult env (waitAttempts env.connOk env.maxRetries)
          | .ok cleaned => fullImportResult env (waitAttempts env.connOk env.maxRetries) cleaned
  else failResult env (waitAttempts env.connOk env.maxRetries)

/-! ## Lemmas about the connectivity waiter -/

theorem waitRun_exhausted (ok : ℕ → Bool) :
    ∀ fuel i, (∀ j, j < fuel → ok (i + j) = false) →
      waitRun ok fuel i = (false, i + fuel) := by
  intro fuel
  induction fuel with
  | zero => intro i _; simp [waitRun]
  | succ n ih =>
      intro i h
      have h0 : ok i = false := by simpa using h 0 (Nat.succ_pos n)
      have hrest : waitRun ok n (i + 1) = (false, (i + 1) + n) := by
        refine ih (i + 1) (fun j hj => ?_)
        have := h (j + 1) (by omega)
        rw [show i + (j + 1) = (i + 1) + j by omega] at this
        exact this
      rw [waitRun, h0]
      simp only [Bool.false_eq_true, if_false, hrest]
      congr 1
      omega

theorem waitRun_first_success (ok : ℕ → Bool) :
    ∀ fuel i k, k < fuel → ok (i + k) = true → (∀ j, j < k → ok (i + j) = false) →
      waitRun ok fuel i = (true, i + k + 1) := by
  intro fuel
  induction fuel with
  | zero => intro i k hk; omega
  | succ n ih =>
      intro i k hk hok hpre
      cases k with
      | zero =>
          have h0 : ok i = true := by simpa using hok
          rw [waitRun, h0]
          simp
      | succ m =>
          have h0 : ok i = false := by simpa using hpre 0 (Nat.succ_pos m)
          have hrest : waitRun ok n (i + 1) = (true, (i + 1) + m + 1) := by
            refine ih (i + 1) m (by omega) ?_ ?_
            · rw [show (i + 1) + m = i + (m + 1) by omega]; exact hok
            · intro j hj
              have := hpre (j + 1) (by omega)
              rw [show i + (j + 1) = (i + 1) + j by omega] at this
              exact this
          rw [waitRun, h0]
          simp only [Bool.false_eq_true, if_false, hrest]
          congr 1
          omega

/-! ## Lemmas about the cleaning stage -/

theorem cols_coerceCol (f : Frame) (c : String) : (coerceCol f c).cols = f.cols := by
  unfold coerceCol
  split <;> rfl

theorem cols_foldl_coerceCol (cs : List String) :
    ∀ f : Frame, (cs.foldl coerceCol f).cols = f.cols := by
  induction cs with
  | nil => intro f; rfl
  | cons c cs ih => intro f; rw [List.foldl_cons, ih, cols_coerceCol]

theorem cols_coerceAll (f : Frame) : (coerceAll f).cols = f.cols :=
  cols_foldl_coerceCol numeric_columns f

theorem clean_error_of_no_hip {df : Frame} (h : "HIP" ∉ df.cols) :
    clean_and_validate_data df = .error "KeyError: HIP" := by
  simp only [clean_and_validate_data, cols_coerceAll]
  simp [h]

theorem clean_ok_of_hip {df : Frame} (h : "HIP" ∈ df.cols) :
    clean_and_validate_data df =
      .ok (distStep (vmagStep
        { coerceAll df with rows := dedupFirst ((coerceAll df).rows.filter hipKeep) [] })) := by
  simp only [clean_and_validate_data, cols_coerceAll]
  simp [h]

theorem hip_mem_of_clean_ok {df g : Frame}
    (h : clean_and_validate_data df = .ok g) : "HIP" ∈ df.cols := by
  by_contra hn
  rw [clean_error_of_no_hip hn] at h
  exact absurd h (by simp)

theorem vmagStep_rows_sublist (f : Frame) : (vmagStep f).rows.Sublist f.rows := by
  unfold vmagStep
  split
  · exact List.filter_sublist f.rows
  · exact List.Sublist.refl f.rows

theorem distStep_rows_sublist (f : Frame) : (distStep f).rows.Sublist f.rows := by
  unfold distStep
  split
  · exact List.filter_sublist f.rows
  · exact List.Sublist.refl f.rows

theorem clean_ok_rows_sublist {df g : Frame}
    (h : clean_and_validate_data df = .ok g) :
    g.rows.Sublist (dedupFirst ((coerceAll df).rows.filter hipKeep) []) := by
  have hmem := hip_mem_of_clean_ok h
  rw [clean_ok_of_hip hmem] at h
  have hg := Except.ok.inj h
  subst hg
  exact (distStep_rows_sublist _).trans (vmagStep_rows_sublist _)

theorem dedupFirst_sublist :
    ∀ (l : List Row) (seen : List Val), (dedupFirst l seen).Sublist l := by
  intro l
  induction l with
  | nil => intro seen; exact List.Sublist.refl _
  | cons x xs ih =>
      intro seen
      unfold dedupFirst
      split
      · exact (ih seen).trans (List.sublist_cons_self x xs)
      · exact List.Sublist.cons₂ x (ih _)

theorem mem_dedupFirst :
    ∀ (l : List Row) (seen : List Val) (r : Row), r ∈ dedupFirst l seen →
      r.get "HIP" ∉ seen ∧
        (l.filter (fun s => s.get "HIP" == r.get "HIP")).head? = some r := by
  intro l
  induction l with
  | nil => intro seen r hr; exact absurd hr (by simp [dedupFirst])
  | cons x xs ih =>
      intro seen r hr
      unfold dedupFirst at hr
      by_cases hx : x.get "HIP" ∈ seen
      · rw [if_pos hx] at hr
        obtain ⟨hns, hh⟩ := ih seen r hr
        have hne : (x.get "HIP" == r.get "HIP") = false := by
          simp only [beq_eq_false_iff_ne, ne_eq]
          intro e
          exact hns (e ▸ hx)
        refine ⟨hns, ?_⟩
        rw [List.filter_cons, if_neg (by simp [hne])]
        exact hh
      · rw [if_neg hx] at hr
        rcases List.mem_cons.mp hr with rfl | hr'
        · refine ⟨hx, ?_⟩
          rw [List.filter_cons, if_pos (by simp)]
          rfl
        · obtain ⟨hns, hh⟩ := ih _ r hr'
          have hnx : r.get "HIP" ≠ x.get "HIP" := by
            intro e
            exact hns (by rw [e]; exact List.mem_cons_self _ _)
          have hne : (x.get "HIP" == r.get "HIP") = false := by
            simp only [beq_eq_false_iff_ne, ne_eq]
            exact fun e => hnx e.symm
          refine ⟨fun hs => hns (List.mem_cons_of_mem _ hs), ?_⟩
          rw [List.filter_cons, if_neg (by simp [hne])]
          exact hh

theorem dedupFirst_nodup :
    ∀ (l : List Row) (seen : List Val),
      ((dedupFirst l seen).map (fun r => r.get "HIP")).Nodup := by
  intro l
  induction l with
  | nil => intro seen; simp [dedupFirst]
  | cons x xs ih =>
      intro seen
      unfold dedupFirst
      split
      · exact ih seen
      · rw [List.map_cons]
        refine List.Nodup.cons ?_ (ih _)
        intro hmem
        obtain ⟨r, hr, he⟩ := List.mem_map.mp hmem
        have := (mem_dedupFirst xs _ r hr).1
        rw [he] at this
        exact this (List.mem_cons_self _ _)

theorem clean_rows_hip_present {df g : Frame}
    (h : clean_and_validate_data df = .ok g) :
    ∀ r ∈ g.rows, r.get "HIP" ≠ Val.na := by
  intro r hr
  have h1 : r ∈ dedupFirst ((coerceAll df).rows.filter hipKeep) [] :=
    (clean_ok_rows_sublist h).subset hr
  have h2 : r ∈ (coerceAll df).rows.filter hipKeep :=
    (dedupFirst_sublist _ _).subset h1
  have h3 := List.of_mem_filter h2
  simpa [hipKeep] using h3

theorem clean_rows_nodup {df g : Frame}
    (h : clean_and_validate_data df = .ok g) :
    (g.rows.map (fun r => r.get "HIP")).Nodup :=
  (dedupFirst_nodup _ []).sublist ((clean_ok_rows_sublist h).map _)

theorem clean_rows_first_occurrence {df g : Frame}
    (h : clean_and_validate_data df = .ok g) :
    ∀ r ∈ g.rows,
      ((coerceAll df).rows.filter (fun s => s.get "HIP" == r.get "HIP")).head? = some r := by
  intro r hr
  have h1 : r ∈ dedupFirst ((coerceAll df).rows.filter hipKeep) [] :=
    (clean_ok_rows_sublist h).subset hr
  have h2 := (mem_dedupFirst _ _ r h1).2
  have hna : r.get "HIP" ≠ Val.na := clean_rows_hip_present h r hr
  rw [List.filter_filter] at h2
  rw [← h2]
  refine congrArg List.head? (List.filter_congr ?_)
  intro s _
  cases hs : (s.get "HIP" == r.get "HIP") with
  | true =>
      have : s.get "HIP" = r.get "HIP" := by simpa using hs
      simp [hipKeep, this, hna]
  | false => simp

/-! ## Lemmas about the batch partition and the insert loop -/

theorem chunkAux_fuel_eq (bs : ℕ) (hbs : 0 < bs) :
    ∀ (fuel₁ fuel₂ : ℕ) (l : List Row), l.length ≤ fuel₁ → l.length ≤ fuel₂ →
      chunkAux bs fuel₁ l = chunkAux bs fuel₂ l := by
  intro fuel₁
  induction fuel₁ with
  | zero =>
      intro fuel₂ l h1 _
      have hl : l = [] := List.eq_nil_of_length_eq_zero (Nat.le_zero.mp h1)
      subst hl
      cases fuel₂ <;> rfl
  | succ n ih =>
      intro fuel₂ l h1 h2
      cases l with
      | nil => cases fuel₂ <;> rfl
      | cons x xs =>
          cases fuel₂ with
          | zero => simp at h2
          | succ m =>
              show (x :: xs).take bs :: chunkAux bs n ((x :: xs).drop bs)
                  = (x :: xs).take bs :: chunkAux bs m ((x :: xs).drop bs)
              congr 1
              have hd : ((x :: xs).drop bs).length = (xs.length + 1) - bs := by
                simp [List.length_drop]
              have hn : ((x :: xs).drop bs).length ≤ n := by simp at h1; omega
              have hm : ((x :: xs).drop bs).length ≤ m := by simp at h2; omega
              exact ih m ((x :: xs).drop bs) hn hm

theorem chunk_cons (bs : ℕ) (hbs : 0 < bs) (l : List Row) (hl : l ≠ []) :
    chunk bs l = l.take bs :: chunk bs (l.drop bs) := by
  cases l with
  | nil => exact absurd rfl hl
  | cons x xs =>
      show (x :: xs).take bs :: chunkAux bs xs.length ((x :: xs).drop bs)
          = (x :: xs).take bs :: chunkAux bs ((x :: xs).drop bs).length ((x :: xs).drop bs)
      congr 1
      have hd : ((x :: xs).drop bs).length = (xs.length + 1) - bs := by
        simp [List.length_drop]
      exact chunkAux_fuel_eq bs hbs xs.length _ _ (by omega) (le_refl _)

theorem chunkAux_join (bs : ℕ) (hbs : 0 < bs) :
    ∀ (fuel : ℕ) (l : List Row), l.length ≤ fuel → (chunkAux bs fuel l).flatten = l := by
  intro fuel
  induction fuel with
  | zero =>
      intro l h1
      have hl : l = [] := List.eq_nil_of_length_eq_zero (Nat.le_zero.mp h1)
      subst hl
      rfl
  | succ n ih =>
      intro l h1
      cases l with
      | nil => rfl
      | cons x xs =>
          show ((x :: xs).take bs :: chunkAux bs n ((x :: xs).drop bs)).flatten = x :: xs
          rw [List.flatten_cons]
          have hd : ((x :: xs).drop bs).length = (xs.length + 1) - bs := by
            simp [List.length_drop]
          rw [ih ((x :: xs).drop bs) (by simp at h1; omega)]
          exact List.take_append_drop bs (x :: xs)

theorem chunk_join (bs : ℕ) (hbs : 0 < bs) (l : List Row) : (chunk bs l).flatten = l :=
  chunkAux_join bs hbs l.length l (le_refl _)

theorem chunkAux_size_le (bs : ℕ) :
    ∀ (fuel : ℕ) (l : List Row), ∀ b ∈ chunkAux bs fuel l, b.length ≤ bs := by
  intro fuel
  induction fuel with
  | zero => intro l b hb; exact absurd hb (by simp [chunkAux])
  | succ n ih =>
      intro l b hb
      cases l with
      | nil => exact absurd hb (by simp [chunkAux])
      | cons x xs =>
          rcases List.mem_cons.mp hb with rfl | hb'
          · simp
          · exact ih _ b hb'

theorem chunk_size_le (bs : ℕ) (l : List Row) : ∀ b ∈ chunk bs l, b.length ≤ bs :=
  chunkAux_size_le bs l.length l

theorem insertLoop_log_sizes (ok : ℕ → Bool) :
    ∀ (batches : List (List Row)) (i t : ℕ),
      (insertLoop ok batches i t).2.map Prod.fst = batches.map List.length := by
  intro batches
  induction batches with
  | nil => intro i t; rfl
  | cons b bs ih =>
      intro i t
      simp only [insertLoop]
      split <;> simp [ih]

theorem insertLoop_total (ok : ℕ → Bool) :
    ∀ (batches : List (List Row)) (i t : ℕ),
      (insertLoop ok batches i t).1 =
        t + (((insertLoop ok batches i t).2.filter Prod.snd).map Prod.fst).sum := by
  intro batches
  induction batches with
  | nil => intro i t; simp [insertLoop]
  | cons b bs ih =>
      intro i t
      simp only [insertLoop]
      split
      · simp only [List.filter_cons, List.map_cons, List.sum_cons]
        rw [ih]
        simp [Nat.add_assoc]
      · simp only [List.filter_cons]
        rw [ih]
        simp

/-! ## Lemmas about the index provisioner -/

theorem indexLoop_attempted (ok : ℕ → Bool) :
    ∀ (specs : List IndexSpec) (i : ℕ),
      (indexLoop ok specs i).1.map Prod.fst = specs := by
  intro specs
  induction specs with
  | nil => intro i; rfl
  | cons s rest ih =>
      intro i
      simp only [indexLoop]
      split <;> simp [ih]

theorem indexLoop_count (ok : ℕ → Bool) :
    ∀ (specs : List IndexSpec) (i : ℕ),
      (indexLoop ok specs i).2 = ((indexLoop ok specs i).1.filter Prod.snd).length := by
  intro specs
  induction specs with
  | nil => intro i; rfl
  | cons s rest ih =>
      intro i
      simp only [indexLoop]
      split <;> simp [ih]

/-! ## Characterizations of the top-level orchestration -/

theorem runPipeline_exitCode_cases (env : Env) :
    (runPipeline env).exitCode = 0 ∨ (runPipeline env).exitCode = 1 := by
  unfold runPipeline
  split
  · split
    · exact Or.inl rfl
    · split
      · exact Or.inr rfl
      · split
        · exact Or.inr rfl
        · split
          · exact Or.inr rfl
          · exact Or.inl rfl
  · exact Or.inr rfl

theorem runPipeline_exit_one_iff (env : Env) :
    (runPipeline env).exitCode = 1 ↔
      wait_for_mongodb env.connOk env.maxRetries = false ∨
        (env.existingCount = 0 ∧
          (findCsv env.pathExists = none ∨ env.parseResult = none ∨
            ∃ df, env.parseResult = some df ∧ "HIP" ∉ df.cols)) := by
  unfold runPipeline
  split
  case isTrue hw =>
    split
    case isTrue hc =>
      simp only [fastPathResult]
      constructor
      · intro h; exact absurd h (by simp)
      · rintro (h | ⟨h0, _⟩)
        · rw [hw] at h; exact absurd h (by simp)
        · omega
    case isFalse hc =>
      have hc0 : env.existingCount = 0 := by omega
      split
      case h_1 hf =>
        simp only [failResult]
        constructor
        · intro _; exact Or.inr ⟨hc0, Or.inl hf⟩
        · intro _; trivial
      case h_2 p hf =>
        split
        case h_1 hp =>
          simp only [failResult]
          constructor
          · intro _; exact Or.inr ⟨hc0, Or.inr (Or.inl hp)⟩
          · intro _; trivial
        case h_2 df hp =>
          split
          case h_1 e hcl =>
            simp only [failResult]
            constructor
            · intro _
              refine Or.inr ⟨hc0, Or.inr (Or.inr ⟨df, hp, ?_⟩)⟩
              intro hmem
              rw [clean_ok_of_hip hmem] at hcl
              exact absurd hcl (by simp)
            · intro _; trivial
          case h_2 cleaned hcl =>
            simp only [fullImportResult]
            constructor
            · intro h; exact absurd h (by simp)
            · rintro (h | ⟨h0, hf' | hp' | ⟨df', hp', hdf'⟩⟩)
              · rw [hw] at h; exact absurd h (by simp)
              · rw [hf] at hf'; exact absurd hf' (by simp)
              · rw [hp] at hp'; exact absurd hp' (by simp)
              · rw [hp] at hp'
                have : df = df' := by injection hp'
                subst this
                exact absurd (hip_mem_of_clean_ok hcl) hdf'
  case isFalse hw =>
    simp only [failResult]
    constructor
    · intro _
      exact Or.inl (Bool.not_eq_true _ ▸ (by simpa using hw))
    · intro _; trivial

theorem runPipeline_exit_batch_stats_irrelevant (env : Env) (b : ℕ → Bool) (s : Bool) :
    (runPipeline { env with batchOk := b, statsOk := s }).exitCode
      = (runPipeline env).exitCode := by
  rcases runPipeline_exitCode_cases env with h | h
  · rcases runPipeline_exitCode_cases { env with batchOk := b, statsOk := s } with h' | h'
    · rw [h, h']
    · exfalso
      have hcond := (runPipeline_exit_one_iff { env with batchOk := b, statsOk := s }).mp h'
      have := (runPipeline_exit_one_iff env).mpr hcond
      omega
  · rw [h]
    have hcond := (runPipeline_exit_one_iff env).mp h
    exact (runPipeline_exit_one_iff { env with batchOk := b, statsOk := s }).mpr hcond

/-! ## Claim theorems -/

/-- Claim C1 (amended): the range filters of steps 4-5 are exact masks,
but the two masks differ on missing values: the Vmag filter retains a row
iff Vmag is present and inside [-3, 20] — a row with missing Vmag is
dropped, because pandas comparisons against NaN are False and the mask
has no `.isna()` escape — while the distance filter retains a row iff
Distance_pc is missing or strictly positive. -/
theorem range_filter_semantics (r : Row) :
    (vmagKeep r = true ↔ ∃ q : ℚ, r.get "Vmag" = .num q ∧ -3 ≤ q ∧ q ≤ 20) ∧
    (distKeep r = true ↔
      (r.get "Distance_pc" = .na ∨ ∃ q : ℚ, r.get "Distance_pc" = .num q ∧ 0 < q)) := by
  constructor
  · unfold vmagKeep
    cases h : r.get "Vmag" <;> simp [h]
  · unfold distKeep
    cases h : r.get "Distance_pc" <;> simp [h]

/-- A row with HIP present and Vmag missing, and the one-row frame
holding it. -/
def vmagMissingRow : Row := [("HIP", .num 1), ("Vmag", .na)]

def vmagMissingFrame : Frame := { cols := ["HIP", "Vmag"], rows := [vmagMissingRow] }

/-- Claim C1 counterexample: a row whose Vmag cell is missing is dropped
by the Vmag filter — `vmagKeep` is false on it and the whole cleaning
stage removes it — contradicting the claim that the Vmag filter retains
every row with missing Vmag. -/
theorem vmag_missing_row_dropped :
    vmagMissingRow.get "Vmag" = Val.na ∧ vmagKeep vmagMissingRow = false ∧
      clean_and_validate_data vmagMissingFrame
        = .ok { cols := ["HIP", "Vmag"], rows := [] } :=
  ⟨rfl, rfl, rfl⟩

/-- Claim C2 (amended): after cleaning no retained row has a missing HIP
value, the HIP values of the cleaned output are pairwise distinct, and
every surviving row is the first row — in file order, over the
type-coerced rows — bearing its HIP value.  Hence at most one row per
HIP value survives; a HIP group may also lose all of its rows to the
later range filters, so "exactly one" does not hold. -/
theorem cleaned_hip_integrity {df g : Frame}
    (h : clean_and_validate_data df = .ok g) :
    (∀ r ∈ g.rows, r.get "HIP" ≠ Val.na) ∧
    (g.rows.map (fun r => r.get "HIP")).Nodup ∧
    (∀ r ∈ g.rows,
      ((coerceAll df).rows.filter (fun s => s.get "HIP" == r.get "HIP")).head?
        = some r) :=
  ⟨clean_rows_hip_present h, clean_rows_nodup h, clean_rows_first_occurrence h⟩

/-- The scenario frame of the specification: rows HIP 1 / Vmag 5,
HIP 1 / Vmag 7, HIP 2 / Vmag 25, missing HIP / Vmag 3. -/
def scenarioFrame : Frame :=
  { cols := ["HIP", "Vmag"],
    rows := [[("HIP", .num 1), ("Vmag", .num 5)],
             [("HIP", .num 1), ("Vmag", .num 7)],
             [("HIP", .num 2), ("Vmag", .num 25)],
             [("HIP", .na), ("Vmag", .num 3)]] }

def scenarioCleaned : Frame :=
  { cols := ["HIP", "Vmag"], rows := [[("HIP", .num 1), ("Vmag", .num 5)]] }

theorem cleaned_hip_integrity_witness :
    (∀ r ∈ scenarioCleaned.rows, r.get "HIP" ≠ Val.na) ∧
    (scenarioCleaned.rows.map (fun r => r.get "HIP")).Nodup ∧
    (∀ r ∈ scenarioCleaned.rows,
      ((coerceAll scenarioFrame).rows.filter
        (fun s => s.get "HIP" == r.get "HIP")).head? = some r) :=
  cleaned_hip_integrity (by rfl)

/-- A frame whose single HIP group loses its only row to the Vmag
filter. -/
def hipGroupFrame : Frame :=
  { cols := ["HIP", "Vmag"], rows := [[("HIP", .num 2), ("Vmag", .num 25)]] }

/-- Claim C2 counterexample: the input holds exactly one row with
HIP = 2, yet after cleaning zero rows survive — the sole occurrence is
dropped by the Vmag range filter — so it is not the case that exactly one
row of every HIP group survives cleaning. -/
theorem hip_group_all_dropped :
    (hipGroupFrame.rows.filter (fun r => r.get "HIP" == Val.num 2)).length = 1 ∧
      clean_and_validate_data hipGroupFrame
        = .ok { cols := ["HIP", "Vmag"], rows := [] } :=
  ⟨rfl, rfl⟩

/-- Claim C3: when the destination already contains N > 0 records (and
connectivity is established), the pipeline issues no insert operation,
the record count is unchanged, index creation is still attempted, and
the process reports success (exit code 0). -/
theorem populated_destination_fast_path (env : Env)
    (hw : wait_for_mongodb env.connOk env.maxRetries = true)
    (hc : 0 < env.existingCount) :
    (runPipeline env).insertCallSizes = [] ∧
    (runPipeline env).totalInserted = 0 ∧
    (runPipeline env).finalCount = env.existingCount ∧
    (runPipeline env).indexAttempted = true ∧
    (runPipeline env).exitCode = 0 := by
  unfold runPipeline
  simp [hw, hc, fastPathResult]

/-- A world with a reachable store already holding 42 documents. -/
def populatedEnv : Env :=
  { connOk := fun _ => true,
    maxRetries := 30,
    existingCount := 42,
    pathExists := fun _ => false,
    parseResult := none,
    batchOk := fun _ => true,
    indexOk := fun _ => true,
    statsOk := true }

theorem populated_destination_fast_path_witness :
    wait_for_mongodb populatedEnv.connOk populatedEnv.maxRetries = true ∧
    0 < populatedEnv.existingCount ∧
    ((runPipeline populatedEnv).insertCallSizes = [] ∧
     (runPipeline populatedEnv).totalInserted = 0 ∧
     (runPipeline populatedEnv).finalCount = populatedEnv.existingCount ∧
     (runPipeline populatedEnv).indexAttempted = true ∧
     (runPipeline populatedEnv).exitCode = 0) :=
  ⟨rfl, by decide,
    populated_destination_fast_path populatedEnv rfl (by decide)⟩

/-- A world whose store never answers, polled with a budget of 3. -/
def neverConnEnv : Env :=
  { connOk := fun _ => false,
    maxRetries := 3,
    existingCount := 0,
    pathExists := fun _ => true,
    parseResult := none,
    batchOk := fun _ => true,
    indexOk := fun _ => true,
    statsOk := true }

/-- Claim C4: the connectivity waiter returns true on the first attempt
that receives acknowledgment (making exactly that many attempts), returns
false only after exhausting all `max_retries` failed attempts, and — being
a total boolean-valued function, every per-attempt exception having been
absorbed by its handler — propagates no exception; in particular against
a target that never responds with `max_retries = 3` it returns false
after exactly 3 attempts and the process then exits with code 1. -/
theorem wait_for_mongodb_semantics :
    (∀ (ok : ℕ → Bool) (n k : ℕ), k < n → ok k = true →
        (∀ j, j < k → ok j = false) →
        wait_for_mongodb ok n = true ∧ waitAttempts ok n = k + 1) ∧
    (∀ (ok : ℕ → Bool) (n : ℕ), (∀ j, j < n → ok j = false) →
        wait_for_mongodb ok n = false ∧ waitAttempts ok n = n) ∧
    (wait_for_mongodb (fun _ => false) 3 = false ∧
      waitAttempts (fun _ => false) 3 = 3 ∧
      (runPipeline neverConnEnv).exitCode = 1 ∧
      (runPipeline neverConnEnv).attemptsMade = 3) := by
  refine ⟨?_, ?_, by decide⟩
  · intro ok n k hk hok hpre
    have hr := waitRun_first_success ok n 0 k hk (by simpa using hok)
      (fun j hj => by simpa using hpre j hj)
    unfold wait_for_mongodb waitAttempts
    rw [hr]
    simp
  · intro ok n hpre
    have hr := waitRun_exhausted ok n 0 (fun j hj => by simpa using hpre j hj)
    unfold wait_for_mongodb waitAttempts
    rw [hr]
    simp

theorem wait_for_mongodb_semantics_witness :
    (wait_for_mongodb (fun j => decide (j = 1)) 3 = true ∧
      waitAttempts (fun j => decide (j = 1)) 3 = 2) ∧
    (wait_for_mongodb (fun _ => false) 2 = false ∧
      waitAttempts (fun _ => false) 2 = 2) :=
  ⟨wait_for_mongodb_semantics.1 (fun j => decide (j = 1)) 3 1 (by decide) (by decide)
      (fun j hj => by
        have hj0 : j = 0 := by omega
        subst hj0
        rfl),
    wait_for_mongodb_semantics.2.1 (fun _ => false) 2 (fun j _ => rfl)⟩

/-- Claim C5 (amended): the process exits with code 1 exactly when
connectivity could not be established, or — on the import path, with the
destination empty — the source file could not be found, could not be
parsed, or the cleaning stage raised a critical error (the parsed table
has no HIP column); it exits 0 otherwise, and neither the per-batch
insert outcomes nor the statistics outcome ever change the exit code. -/
theorem exit_code_characterization (env : Env) :
    ((runPipeline env).exitCode = 1 ↔
      wait_for_mongodb env.connOk env.maxRetries = false ∨
        (env.existingCount = 0 ∧
          (findCsv env.pathExists = none ∨ env.parseResult = none ∨
            ∃ df, env.parseResult = some df ∧ "HIP" ∉ df.cols))) ∧
    ((runPipeline env).exitCode = 0 ∨ (runPipeline env).exitCode = 1) ∧
    (∀ (b : ℕ → Bool) (s : Bool),
      (runPipeline { env with batchOk := b, statsOk := s }).exitCode
        = (runPipeline env).exitCode) :=
  ⟨runPipeline_exit_one_iff env, runPipeline_exitCode_cases env,
    fun b s => runPipeline_exit_batch_stats_irrelevant env b s⟩

/-- A world where everything up to cleaning succeeds but the parsed table
has no HIP column. -/
def noHipColumnEnv : Env :=
  { connOk := fun _ => true,
    maxRetries := 30,
    existingCount := 0,
    pathExists := fun _ => true,
    parseResult := some { cols := ["Vmag", "RA"], rows := [[("Vmag", .num 5)]] },
    batchOk := fun _ => true,
    indexOk := fun _ => true,
    statsOk := true }

/-- Claim C5 counterexample: a run where connectivity is established and
the source file is both found and parsed still exits with code 1 — the
cleaning stage raises on the missing HIP column and the critical handler
turns that into failure — so exit code 1 is not confined to connectivity
and find/parse failures. -/
theorem exit_one_beyond_find_parse :
    wait_for_mongodb noHipColumnEnv.connOk noHipColumnEnv.maxRetries = true ∧
    (findCsv noHipColumnEnv.pathExists).isSome = true ∧
    noHipColumnEnv.parseResult.isSome = true ∧
    (runPipeline noHipColumnEnv).exitCode = 1 :=
  ⟨rfl, rfl, rfl, by rfl⟩

/-- Claim C6: in the bulk loader a failing batch is recorded and skipped
without aborting later batches — the per-batch outcome log covers every
batch in order, whatever the outcomes — and the reported
`total_inserted` is the number of records of the batches whose insert
succeeded, i.e. the records actually inserted across all batches. -/
theorem batch_failure_isolation (ok : ℕ → Bool) (batches : List (List Row)) (i : ℕ) :
    ((insertLoop ok batches i 0).2.map Prod.fst = batches.map List.length) ∧
    (insertLoop ok batches i 0).1
      = (((insertLoop ok batches i 0).2.filter Prod.snd).map Prod.fst).sum := by
  refine ⟨insertLoop_log_sizes ok batches i 0, ?_⟩
  have h := insertLoop_total ok batches i 0
  simpa using h

/-- Claim C7: the bulk loader partitions the records into consecutive
slices of at most 5000 in source order (their concatenation restores the
record list), and on 7000 records it issues exactly 2 insert operations —
one of 5000 records, then one of 2000 — reporting 7000 records inserted
when no batch fails. -/
theorem batch_partition_7000 (records : List Row) (h : records.length = 7000) :
    (∀ l : List Row, (chunk 5000 l).flatten = l ∧ ∀ b ∈ chunk 5000 l, b.length ≤ 5000) ∧
    chunk 5000 records = [records.take 5000, records.drop 5000] ∧
    (chunk 5000 records).length = 2 ∧
    (chunk 5000 records).map List.length = [5000, 2000] ∧
    (insertLoop (fun _ => true) (chunk 5000 records) 0 0).1 = 7000 := by
  have hpos : (0 : ℕ) < 5000 := by norm_num
  have hne : records ≠ [] := by
    intro e
    rw [e] at h
    simp at h
  have hd : (records.drop 5000).length = 2000 := by simp [h]
  have hsplit : chunk 5000 records = [records.take 5000, records.drop 5000] := by
    rw [chunk_cons 5000 hpos records hne]
    have hdne : records.drop 5000 ≠ [] := by
      intro e
      rw [e] at hd
      simp at hd
    rw [chunk_cons 5000 hpos _ hdne]
    rw [List.take_of_length_le (show (records.drop 5000).length ≤ 5000 by omega),
      List.drop_of_length_le (show (records.drop 5000).length ≤ 5000 by omega)]
    rfl
  refine ⟨fun l => ⟨chunk_join 5000 hpos l, chunk_size_le 5000 l⟩, hsplit, ?_, ?_, ?_⟩
  · rw [hsplit]; rfl
  · rw [hsplit]
    simp [List.length_take, h]
  · rw [hsplit]
    simp [insertLoop, List.length_take, h]

/-- 7000 rows (all empty), the size of the specification's batching
scenario. -/
def sevenThousandRows : List Row := List.replicate 7000 []

theorem batch_partition_7000_witness :
    sevenThousandRows.length = 7000 ∧
    ((∀ l : List Row,
        (chunk 5000 l).flatten = l ∧ ∀ b ∈ chunk 5000 l, b.length ≤ 5000) ∧
      chunk 5000 sevenThousandRows
        = [sevenThousandRows.take 5000, sevenThousandRows.drop 5000] ∧
      (chunk 5000 sevenThousandRows).length = 2 ∧
      (chunk 5000 sevenThousandRows).map List.length = [5000, 2000] ∧
      (insertLoop (fun _ => true) (chunk 5000 sevenThousandRows) 0 0).1 = 7000) :=
  ⟨by rw [sevenThousandRows, List.length_replicate],
    batch_partition_7000 sevenThousandRows (by rw [sevenThousandRows, List.length_replicate])⟩

/-- Claim C8 (amended): the index provisioner attempts each of the seven
hardcoded indexes independently — whatever the per-index outcomes, all
seven specs are attempted, in order — and its `created_count` is the
number of successful creations; that count, however, is logged rather
than returned: the function's Python return value is None. -/
theorem index_provisioner_independence (ok : ℕ → Bool) :
    ((create_database_indexes ok).attempts.map Prod.fst = indexes_to_create) ∧
    (create_database_indexes ok).attempts.length = 7 ∧
    ((create_database_indexes ok).createdCount
      = ((create_database_indexes ok).attempts.filter Prod.snd).length) ∧
    (create_database_indexes ok).ret = none := by
  refine ⟨indexLoop_attempted ok indexes_to_create 0, ?_,
    indexLoop_count ok indexes_to_create 0, rfl⟩
  have h := congrArg List.length (indexLoop_attempted ok indexes_to_create 0)
  simpa using h

/-- Claim C8 counterexample: even when all seven index creations succeed,
the provisioner's return value is None rather than the count 7 — the
count is only logged — so the count of created indexes is not returned
to the caller. -/
theorem index_provisioner_returns_none :
    (create_database_indexes (fun _ => true)).createdCount = 7 ∧
    (create_database_indexes (fun _ => true)).ret = none ∧
    (create_database_indexes (fun _ => true)).ret
      ≠ some (create_database_indexes (fun _ => true)).createdCount := by
  refine ⟨rfl, rfl, by decide⟩

/-- Claim C9 (amended): index provisioning is attempted exactly on the
runs that reach the import decision: the connectivity wait succeeded and
either the destination is already populated (fast path) or the source
file is found, parses, and survives cleaning (full import path).  Runs
failing before that point perform no index creation, so provisioning is
not literally unconditional on every invocation. -/
theorem index_provisioning_reach (env : Env) :
    (runPipeline env).indexAttempted = true ↔
      (wait_for_mongodb env.connOk env.maxRetries = true ∧
        (0 < env.existingCount ∨
          ((findCsv env.pathExists).isSome = true ∧
            ∃ df, env.parseResult = some df ∧ "HIP" ∈ df.cols))) := by
  unfold runPipeline
  split
  case isTrue hw =>
    split
    case isTrue hc => simp [fastPathResult, hw, hc]
    case isFalse hc =>
      split
      case h_1 hf => simp [failResult, hw, hc, hf]
      case h_2 p hf =>
        split
        case h_1 hp => simp [failResult, hw, hc, hf, hp]
        case h_2 df hp =>
          split
          case h_1 e hcl =>
            simp only [failResult]
            constructor
            · intro h; exact absurd h (by simp)
            · rintro ⟨-, h0 | ⟨-, df', hdf', hmem⟩⟩
              · exact absurd h0 hc
              · exfalso
                rw [hp] at hdf'
                have hdd : df = df' := by injection hdf'
                subst hdd
                rw [clean_ok_of_hip hmem] at hcl
                exact absurd hcl (by simp)
          case h_2 cleaned hcl =>
            simp only [fullImportResult]
            constructor
            · intro _
              exact ⟨hw, Or.inr ⟨by rw [hf]; rfl, df, hp, hip_mem_of_clean_ok hcl⟩⟩
            · intro _; trivial
  case isFalse hw =>
    simp [failResult, hw]

/-- A world with a reachable store, an empty destination, and no CSV
file at any candidate path. -/
def missingCsvEnv : Env :=
  { connOk := fun _ => true,
    maxRetries := 30,
    existingCount := 0,
    pathExists := fun _ => false,
    parseResult := none,
    batchOk := fun _ => true,
    indexOk := fun _ => true,
    statsOk := true }

/-- Claim C9 counterexample: an invocation of the pipeline — connectivity
established, destination empty, source file missing everywhere — that
attempts no index creation at all, so index provisioning does not run on
every invocation regardless of path. -/
theorem index_provisioning_skipped :
    (runPipeline missingCsvEnv).indexAttempted = false ∧
    (runPipeline missingCsvEnv).exitCode = 1 := by
  decide

/-- The parsed table of `noHipColumnEnv`: it has no HIP column. -/
def noHipFrame : Frame := { cols := ["Vmag", "RA"], rows := [[("Vmag", .num 5)]] }

/-- A frame that has a HIP column but neither Vmag nor Distance_pc. -/
def onlyHipFrame : Frame := { cols := ["HIP"], rows := [[("HIP", .num 7)]] }

/-- Claim C10: when the raw table has no HIP column, the cleaning stage
raises (an absent column is not treated as all values missing), the
error is caught as a critical import error and the process exits with
code 1; when instead the Vmag or Distance_pc column is absent, the
corresponding filter step is skipped entirely and the frame passes
through it unchanged. -/
theorem missing_column_behavior (df f : Frame) (env : Env)
    (hhip : "HIP" ∉ df.cols)
    (hc : env.existingCount = 0)
    (hp : env.parseResult = some df)
    (hv : "Vmag" ∉ f.cols)
    (hd : "Distance_pc" ∉ f.cols) :
    clean_and_validate_data df = .error "KeyError: HIP" ∧
    (runPipeline env).exitCode = 1 ∧
    vmagStep f = f ∧
    distStep f = f := by
  refine ⟨clean_error_of_no_hip hhip, ?_, ?_, ?_⟩
  · exact (runPipeline_exit_one_iff env).mpr
      (Or.inr ⟨hc, Or.inr (Or.inr ⟨df, hp, hhip⟩)⟩)
  · unfold vmagStep
    rw [if_neg hv]
  · unfold distStep
    rw [if_neg hd]

theorem missing_column_behavior_witness :
    ("HIP" ∉ noHipFrame.cols ∧ noHipColumnEnv.existingCount = 0 ∧
      noHipColumnEnv.parseResult = some noHipFrame ∧
      "Vmag" ∉ onlyHipFrame.cols ∧ "Distance_pc" ∉ onlyHipFrame.cols) ∧
    (clean_and_validate_data noHipFrame = .error "KeyError: HIP" ∧
      (runPipeline noHipColumnEnv).exitCode = 1 ∧
      vmagStep onlyHipFrame = onlyHipFrame ∧
      distStep onlyHipFrame = onlyHipFrame) :=
  ⟨⟨by decide, rfl, rfl, by decide, by decide⟩,
    missing_column_behavior noHipFrame onlyHipFrame noHipColumnEnv
      (by decide) rfl rfl (by decide) (by decide)⟩

end STAR
